import Mathlib

/-!
Verification development for the store-rating backend (Express + PostgreSQL).

The relevant program parts are shallowly embedded:
* the `users` / `stores` / `ratings` schema and the `update_store_rating`
  trigger from the database configuration file;
* the `GET /api/stores` list handler, `GET /api/stores/:id`,
  `POST /api/stores` from src/routes/stores.js;
* the `GET /api/users` list handler and `GET /api/users/:id` from the users
  route file;
* the rating handlers `POST /api/ratings`, `PUT /api/ratings/:storeId`,
  `DELETE /api/ratings/:storeId` from src/routes/ratings.js;
* the Express dispatch order of the GET routes on the stores router.

Machine integers are modelled as `Nat`/`Int`; SQL strings as `String`;
absent query parameters as `none : Option String`.
-/

namespace StoreRating

/-! ### JavaScript query-parameter semantics

Express delivers each query parameter as a string (when present) or as
`undefined` (when absent).  The handlers destructure with defaults, e.g.
`const { page = 1, limit = 10 } = req.query;` — the default applies only
when the property is `undefined`.  We model the JavaScript values that can
occur at that point. -/

inductive JsVal where
  | undef
  | num (n : Int)
  | vstr (s : String)
  deriving DecidableEq, Repr

/-- Digit-string value: `some n` when every character is a decimal digit.
The empty list yields `some 0`; callers rule that case out. -/
def decDigitsVal (cs : List Char) : Option Nat :=
  cs.foldl
    (fun acc c =>
      match acc with
      | none => none
      | some n => if c.isDigit then some (n * 10 + (c.toNat - 48)) else none)
    (some 0)

/-- Parse a string as an optionally negated decimal integer; `none` when the
string is empty or contains a non-digit.  This covers the integer-valued
strings relevant here; fractional or exotic numeric syntax is treated as
unparseable. -/
def strToInt (s : String) : Option Int :=
  match s.data with
  | [] => none
  | '-' :: rest =>
      if rest.isEmpty then none
      else (decDigitsVal rest).map (fun n => -(n : Int))
  | cs => (decDigitsVal cs).map (fun n => (n : Int))

/-- ECMAScript ToNumber on the values appearing here, with `none` standing
for NaN.  The empty string converts to 0; non-numeric strings to NaN. -/
def jsToNumber : JsVal → Option Int
  | .undef => none
  | .num n => some n
  | .vstr s => if s = "" then some 0 else strToInt s

/-- PostgreSQL parsing of a bound integer parameter (`LIMIT $n` /
`OFFSET $n`): `none` means the query errors out. -/
def pgIntParam : JsVal → Option Int
  | .undef => none
  | .num n => some n
  | .vstr s => strToInt s

/-- `const { page = 1 } = req.query`: the default `1` applies only to an
absent parameter. -/
def effPageVal (page : Option String) : JsVal :=
  match page with
  | none => .num 1
  | some s => .vstr s

/-- `const { limit = 10 } = req.query`: the default `10` applies only to an
absent parameter. -/
def effLimitVal (lim : Option String) : JsVal :=
  match lim with
  | none => .num 10
  | some s => .vstr s

/-- `const offset = (page - 1) * limit;` with NaN propagation. -/
def offsetNumber (page lim : Option String) : Option Int :=
  match jsToNumber (effPageVal page), jsToNumber (effLimitVal lim) with
  | some p, some l => some ((p - 1) * l)
  | _, _ => none

/-- Effective LIMIT accepted by PostgreSQL: the destructured value is bound
as `LIMIT $n`; an unparseable value or a negative limit makes the query
fail (`none`).  `LIMIT 0` is accepted and returns no rows. -/
def effLimit (lim : Option String) : Option Int :=
  match pgIntParam (effLimitVal lim) with
  | some n => if n < 0 then none else some n
  | none => none

/-- Effective OFFSET accepted by PostgreSQL: the computed JS number is bound
as `OFFSET $n`; NaN or a negative offset makes the query fail (`none`). -/
def effOffset (page lim : Option String) : Option Int :=
  match offsetNumber page lim with
  | some n => if n < 0 then none else some n
  | none => none

/-- `Math.ceil(total / limit)` for a nonnegative `total` and a limit that
PostgreSQL accepted (`l ≥ 0`): `none` models the non-finite JS results
(`Infinity` / `NaN`) arising from `limit = 0`. -/
def jsCeilDiv (total : Nat) (l : Int) : Option Int :=
  if 0 < l then some (((total + l.toNat - 1) / l.toNat : Nat) : Int) else none

/-! ### Data model (from `initializeDatabase`)

Only the columns the claims touch are carried.  `average_rating` is a
`DECIMAL(2,1)`; we store it exactly, in tenths, as a `Nat`
(`averageTenths = 43` means `4.3`).  Timestamps are abstract `Nat`s. -/

structure UserRow where
  id : Nat
  name : String
  email : String
  address : String
  role : String
  createdAt : Nat
  deriving DecidableEq, Repr

structure StoreRow where
  id : Nat
  name : String
  email : String
  address : String
  ownerId : Option Nat
  averageTenths : Nat
  totalRatings : Nat
  createdAt : Nat
  deriving DecidableEq, Repr

structure RatingRow where
  userId : Nat
  storeId : Nat
  value : Nat
  comment : Option String
  deriving DecidableEq, Repr

structure DB where
  users : List UserRow
  stores : List StoreRow
  ratings : List RatingRow
  deriving DecidableEq, Repr

/-- The roles the `users.role CHECK` constraint lets PostgreSQL store:
`CHECK (role IN ('system_admin', 'normal_user', 'store_owner'))`. -/
def storableRoles : List String := ["system_admin", "normal_user", "store_owner"]

/-- The authenticated principal `{id, role}` attached by the (external)
auth middleware. -/
structure Principal where
  id : Nat
  role : String
  deriving DecidableEq, Repr

/-! ### Aggregate maintenance (`update_store_rating` trigger) -/

/-- `SELECT rating FROM ratings WHERE store_id = sid` (values only). -/
def ratingsFor (db : DB) (sid : Nat) : List Nat :=
  (db.ratings.filter (fun r => r.storeId = sid)).map (fun r => r.value)

/-- `COALESCE(AVG(rating), 0)` assigned to the `DECIMAL(2,1)` column,
in tenths.  PostgreSQL rounds the exact numeric average half away from
zero when storing it at scale 1; for the nonnegative averages here that is
`(20 * sum + n) / (2 * n)` in integer arithmetic. -/
def pgAvgTenths (l : List Nat) : Nat :=
  if l = [] then 0 else (20 * l.sum + l.length) / (2 * l.length)

/-- Body of `update_store_rating()`: `UPDATE stores SET average_rating = …,
total_ratings = … WHERE id = sid`, recomputed from the live rating rows. -/
def recomputeStore (db : DB) (sid : Nat) : DB :=
  { db with
    stores := db.stores.map (fun s =>
      if s.id = sid then
        { s with
          averageTenths := pgAvgTenths (ratingsFor db sid)
          totalRatings := (ratingsFor db sid).length }
      else s) }

/-- Spec-side reading of "mean of the rating values rounded to 1 decimal
place" (in tenths, ties rounded up), and `0` when no ratings exist. -/
def meanTenthsRounded (l : List Nat) : Nat :=
  if l = [] then 0 else ⌊10 * (l.sum : ℚ) / (l.length : ℚ) + 1 / 2⌋₊

/-- §3 invariant: the store row for `sid` carries exactly the count of its
rating rows and their mean rounded to one decimal place (`0` when none). -/
def aggConsistent (db : DB) (sid : Nat) : Prop :=
  ∀ s ∈ db.stores, s.id = sid →
    s.totalRatings = (ratingsFor db sid).length ∧
    s.averageTenths = meanTenthsRounded (ratingsFor db sid)

instance (db : DB) (sid : Nat) : Decidable (aggConsistent db sid) := by
  unfold aggConsistent
  infer_instance

/-- Aggregate columns of the store rows with id `sid` (as a list, so that
"unchanged" also covers a missing row). -/
def storeAgg (db : DB) (sid : Nat) : List (Nat × Nat) :=
  (db.stores.filter (fun s => s.id = sid)).map (fun s => (s.averageTenths, s.totalRatings))

/-- §3 uniqueness: at most one rating row per `(user_id, store_id)` pair
(the `UNIQUE(user_id, store_id)` constraint). -/
def ratingsUnique (db : DB) : Prop :=
  db.ratings.Pairwise (fun a b => ¬(a.userId = b.userId ∧ a.storeId = b.storeId))

/-! ### Row-level rating mutations and the trigger

`rating_update_trigger` runs `AFTER INSERT OR UPDATE OR DELETE ON ratings
FOR EACH ROW` and recomputes the single store
`COALESCE(NEW.store_id, OLD.store_id)`. -/

inductive RatingMutation where
  | ins (r : RatingRow)
  | upd (oldRow newRow : RatingRow)
  | del (r : RatingRow)
  deriving DecidableEq, Repr

/-- `COALESCE(NEW.store_id, OLD.store_id)`: `store_id` is `NOT NULL`, so an
insert or update yields `NEW.store_id` and a delete yields `OLD.store_id`. -/
def mutTarget : RatingMutation → Nat
  | .ins r => r.storeId
  | .upd _ n => n.storeId
  | .del r => r.storeId

def replaceFirstRow : List RatingRow → RatingRow → RatingRow → List RatingRow
  | [], _, _ => []
  | x :: xs, o, n => if x = o then n :: xs else x :: replaceFirstRow xs o n

def removeFirstRow : List RatingRow → RatingRow → List RatingRow
  | [], _ => []
  | x :: xs, r => if x = r then xs else x :: removeFirstRow xs r

/-- The row-level effect of the mutation on the `ratings` table. -/
def applyRowChange (db : DB) : RatingMutation → DB
  | .ins r => { db with ratings := db.ratings ++ [r] }
  | .upd o n => { db with ratings := replaceFirstRow db.ratings o n }
  | .del r => { db with ratings := removeFirstRow db.ratings r }

/-- Row mutation followed by the trigger firing for that row. -/
def applyMutation (db : DB) (m : RatingMutation) : DB :=
  recomputeStore (applyRowChange db m) (mutTarget m)

/-! ### Rating route handlers (src/routes/ratings.js) -/

/-- `SELECT id FROM ratings WHERE user_id = $1 AND store_id = $2` found a
row. -/
def ratingExists (db : DB) (userId storeId : Nat) : Bool :=
  db.ratings.any (fun r => r.userId = userId && r.storeId = storeId)

/-- `SELECT id FROM stores WHERE id = $1` found a row. -/
def storeExists (db : DB) (storeId : Nat) : Bool :=
  db.stores.any (fun s => s.id = storeId)

inductive SubmitResult where
  | storeNotFound
  | alreadyRated
  | created
  deriving DecidableEq, Repr

/-- `POST /api/ratings`: 404 when the store is missing, 400 when the user
already rated this store, otherwise `INSERT` (which fires the trigger). -/
def submitRating (db : DB) (userId storeId value : Nat) (comment : Option String) :
    SubmitResult × DB :=
  if !storeExists db storeId then (.storeNotFound, db)
  else if ratingExists db userId storeId then (.alreadyRated, db)
  else (.created, applyMutation db (.ins ⟨userId, storeId, value, comment⟩))

inductive UpdateResult where
  | storeNotFound
  | notRated
  | updated
  deriving DecidableEq, Repr

/-- `PUT /api/ratings/:storeId`: 404 when the store is missing, 404 when no
rating by this user pre-exists, otherwise `UPDATE ratings SET rating,
comment WHERE user_id AND store_id` (the trigger recomputes `storeId`). -/
def updateRating (db : DB) (userId storeId value : Nat) (comment : Option String) :
    UpdateResult × DB :=
  if !storeExists db storeId then (.storeNotFound, db)
  else if !ratingExists db userId storeId then (.notRated, db)
  else
    let db1 := { db with
      ratings := db.ratings.map (fun r =>
        if r.userId = userId && r.storeId = storeId then
          { r with value := value, comment := comment }
        else r) }
    (.updated, recomputeStore db1 storeId)

inductive DeleteResult where
  | notFound
  | deleted
  deriving DecidableEq, Repr

/-- `DELETE /api/ratings/:storeId`: 404 when no rating by this user exists,
otherwise `DELETE FROM ratings WHERE user_id AND store_id` (the trigger
recomputes `storeId`). -/
def deleteRating (db : DB) (userId storeId : Nat) : DeleteResult × DB :=
  if !ratingExists db userId storeId then (.notFound, db)
  else
    let db1 := { db with
      ratings := db.ratings.filter (fun r =>
        !(r.userId = userId && r.storeId = storeId)) }
    (.deleted, recomputeStore db1 storeId)

/-- A route-level rating operation against a store. -/
inductive RatingOp where
  | submit (userId storeId value : Nat) (comment : Option String)
  | update (userId storeId value : Nat) (comment : Option String)
  | remove (userId storeId : Nat)
  deriving DecidableEq, Repr

/-- The store an operation is directed at. -/
def opStore : RatingOp → Nat
  | .submit _ s _ _ => s
  | .update _ s _ _ => s
  | .remove _ s => s

/-- State reached after one rating operation (failed operations leave the
database unchanged). -/
def applyRatingOp (db : DB) : RatingOp → DB
  | .submit u s v c => (submitRating db u s v c).2
  | .update u s v c => (updateRating db u s v c).2
  | .remove u s => (deleteRating db u s).2

def applyRatingOps (db : DB) (ops : List RatingOp) : DB :=
  ops.foldl applyRatingOp db

/-! ### Case-insensitive substring search

`LOWER(col) LIKE LOWER('%text%')` for search text without LIKE
metacharacters. -/

def charsStartWith : List Char → List Char → Bool
  | [], _ => true
  | _ :: _, [] => false
  | a :: as, b :: bs => a = b && charsStartWith as bs

/-- `charsContain needle hay`: `needle` occurs contiguously in `hay`. -/
def charsContain (needle : List Char) : List Char → Bool
  | [] => charsStartWith needle []
  | hay@(_ :: rest) => charsStartWith needle hay || charsContain needle rest

def likeContains (hay needle : String) : Bool :=
  charsContain needle.toLower.data hay.toLower.data

/-! ### Sorting (ORDER BY col ASC/DESC) -/

def insertOrdered (le : α → α → Bool) (x : α) : List α → List α
  | [] => [x]
  | y :: ys => if le x y then x :: y :: ys else y :: insertOrdered le x ys

def sortByLe (le : α → α → Bool) : List α → List α
  | [] => []
  | x :: xs => insertOrdered le x (sortByLe le xs)

/-! ### GET /api/stores (src/routes/stores.js) -/

def storesValidSortFields : List String :=
  ["name", "email", "address", "average_rating", "total_ratings", "created_at"]

def validSortOrders : List String := ["asc", "desc"]

def storesValidSearchFields : List String := ["name", "address"]

/-- `const sortField = validSortFields.includes(sortBy) ? sortBy : 'name';`
(with the destructuring default `sortBy = 'name'` for an absent param). -/
def storesSortField (sortBy : Option String) : String :=
  let sb := sortBy.getD "name"
  if sb ∈ storesValidSortFields then sb else "name"

/-- `const order = validSortOrders.includes(sortOrder.toLowerCase()) ?
sortOrder.toUpperCase() : 'ASC';` -/
def storesOrder (sortOrder : Option String) : String :=
  let so := sortOrder.getD "asc"
  if so.toLower ∈ validSortOrders then so.toUpper else "ASC"

/-- `const searchField = validSearchFields.includes(searchBy) ? searchBy :
'name';` -/
def storesSearchField (searchBy : Option String) : String :=
  let sb := searchBy.getD "name"
  if sb ∈ storesValidSearchFields then sb else "name"

/-- The column `s.${searchField}`; only the allow-listed fields `name` and
`address` reach this point. -/
def storeSearchCol (field : String) (s : StoreRow) : String :=
  if field = "address" then s.address else s.name

/-- Comparison for `ORDER BY s.${sortField}` (ascending). -/
def storeLe (field : String) (a b : StoreRow) : Bool :=
  if field = "email" then a.email ≤ b.email
  else if field = "address" then a.address ≤ b.address
  else if field = "average_rating" then a.averageTenths ≤ b.averageTenths
  else if field = "total_ratings" then a.totalRatings ≤ b.totalRatings
  else if field = "created_at" then a.createdAt ≤ b.createdAt
  else a.name ≤ b.name

def sortStores (field order : String) (l : List StoreRow) : List StoreRow :=
  sortByLe (fun a b => if order = "DESC" then storeLe field b a else storeLe field a b) l

/-- WHERE clause of the main stores query: `WHERE 1=1`, plus
`AND LOWER(s.col) LIKE LOWER('%search%')` when `search` is truthy, plus
`AND s.owner_id = $n` when the requester is a store owner. -/
def storesRowPred (p : Principal) (search searchField : String) (s : StoreRow) : Bool :=
  (if search = "" then true else likeContains (storeSearchCol searchField s) search) &&
  (if p.role = "STORE_OWNER" then s.ownerId = some p.id else true)

/-- WHERE clause of the separate `SELECT COUNT(*) FROM stores s` query,
assembled independently in the handler with the same two conditions. -/
def storesCountPred (p : Principal) (search searchField : String) (s : StoreRow) : Bool :=
  (if search = "" then true else likeContains (storeSearchCol searchField s) search) &&
  (if p.role = "STORE_OWNER" then s.ownerId = some p.id else true)

/-- One result row.  `userRating = none` means the `user_rating` column was
not selected at all (requester not a normal user); `some none` is a NULL
from the LEFT JOIN.  The joins multiply row counts by exactly one: a store
has at most one `owner_id`, and `UNIQUE(user_id, store_id)` gives at most
one rating per user per store, so they are embedded as lookups. -/
structure StoreListItem where
  id : Nat
  name : String
  email : String
  address : String
  averageTenths : Nat
  totalRatings : Nat
  createdAt : Nat
  ownerName : Option String
  userRating : Option (Option Nat)
  deriving DecidableEq, Repr

def mkStoreListItem (db : DB) (p : Principal) (s : StoreRow) : StoreListItem :=
  { id := s.id, name := s.name, email := s.email, address := s.address
    averageTenths := s.averageTenths, totalRatings := s.totalRatings
    createdAt := s.createdAt
    ownerName := (s.ownerId.bind (fun oid => db.users.find? (fun u => u.id = oid))).map
      (fun u => u.name)
    userRating := if p.role = "NORMAL_USER" then
        some ((db.ratings.find? (fun r => r.storeId = s.id && r.userId = p.id)).map
          (fun r => r.value))
      else none }

structure Pagination where
  currentPage : Int
  totalPages : Option Int
  total : Nat
  hasNext : Bool
  hasPrev : Bool
  deriving DecidableEq, Repr

structure StoresQuery where
  page : Option String
  limit : Option String
  sortBy : Option String
  sortOrder : Option String
  search : Option String
  searchBy : Option String
  deriving DecidableEq, Repr

structure StoresListResult where
  stores : List StoreListItem
  pagination : Pagination
  deriving DecidableEq, Repr

/-- Successful branch of the handler, once PostgreSQL has accepted
`LIMIT l OFFSET off`.  `hasNext` is the JS comparison `page < totalPages`
(a comparison against `Infinity` is true, against `NaN` false); `hasPrev`
is `page > 1`. -/
def listStoresOk (db : DB) (p : Principal) (q : StoresQuery) (l off : Int) :
    StoresListResult :=
  let sortField := storesSortField q.sortBy
  let order := storesOrder q.sortOrder
  let searchField := storesSearchField q.searchBy
  let search := q.search.getD ""
  let filtered := db.stores.filter (storesRowPred p search searchField)
  let pageRows := ((sortStores sortField order filtered).drop off.toNat).take l.toNat
  let total := (db.stores.filter (storesCountPred p search searchField)).length
  let tp := jsCeilDiv total l
  let pn := (jsToNumber (effPageVal q.page)).getD 0
  { stores := pageRows.map (mkStoreListItem db p)
    pagination :=
      { currentPage := pn
        totalPages := tp
        total := total
        hasNext := match tp with
          | some t => decide (pn < t)
          | none => decide (0 < total)
        hasPrev := decide (1 < pn) } }

/-- `GET /api/stores`: `none` models the 500 response produced when
PostgreSQL rejects the bound LIMIT/OFFSET parameters (non-numeric or
negative values). -/
def listStores (db : DB) (p : Principal) (q : StoresQuery) :
    Option StoresListResult :=
  match effLimit q.limit, effOffset q.page q.limit with
  | some l, some off => some (listStoresOk db p q l off)
  | _, _ => none

/-! ### GET /api/users (users route file) -/

def usersValidSortFields : List String :=
  ["name", "email", "address", "role", "created_at"]

def usersValidSearchFields : List String := ["name", "email", "address", "role"]

def usersSortField (sortBy : Option String) : String :=
  let sb := sortBy.getD "name"
  if sb ∈ usersValidSortFields then sb else "name"

def usersOrder (sortOrder : Option String) : String :=
  let so := sortOrder.getD "asc"
  if so.toLower ∈ validSortOrders then so.toUpper else "ASC"

def usersSearchField (searchBy : Option String) : String :=
  let sb := searchBy.getD "name"
  if sb ∈ usersValidSearchFields then sb else "name"

def userSearchCol (field : String) (u : UserRow) : String :=
  if field = "email" then u.email
  else if field = "address" then u.address
  else if field = "role" then u.role
  else u.name

def userLe (field : String) (a b : UserRow) : Bool :=
  if field = "email" then a.email ≤ b.email
  else if field = "address" then a.address ≤ b.address
  else if field = "role" then a.role ≤ b.role
  else if field = "created_at" then a.createdAt ≤ b.createdAt
  else a.name ≤ b.name

def sortUsers (field order : String) (l : List UserRow) : List UserRow :=
  sortByLe (fun a b => if order = "DESC" then userLe field b a else userLe field a b) l

/-- WHERE clause of the main users query: search filter plus the equality
filter `AND u.role = $n` when a `role` query parameter is truthy. -/
def usersRowPred (search searchField roleFilter : String) (u : UserRow) : Bool :=
  (if search = "" then true else likeContains (userSearchCol searchField u) search) &&
  (if roleFilter = "" then true else u.role = roleFilter)

/-- WHERE clause of the separate `SELECT COUNT(*) FROM users` query. -/
def usersCountPred (search searchField roleFilter : String) (u : UserRow) : Bool :=
  (if search = "" then true else likeContains (userSearchCol searchField u) search) &&
  (if roleFilter = "" then true else u.role = roleFilter)

/-- `store_rating` is `CASE WHEN u.role = 'STORE_OWNER' THEN
s.average_rating ELSE NULL END` over `LEFT JOIN stores s ON u.id =
s.owner_id AND u.role = 'STORE_OWNER'`. -/
structure UserListItem where
  id : Nat
  name : String
  email : String
  address : String
  role : String
  createdAt : Nat
  storeRating : Option Nat
  deriving DecidableEq, Repr

def mkUserListItem (db : DB) (u : UserRow) : UserListItem :=
  { id := u.id, name := u.name, email := u.email, address := u.address
    role := u.role, createdAt := u.createdAt
    storeRating := if u.role = "STORE_OWNER" then
        (db.stores.find? (fun s => s.ownerId = some u.id)).map (fun s => s.averageTenths)
      else none }

structure UsersQuery where
  page : Option String
  limit : Option String
  sortBy : Option String
  sortOrder : Option String
  search : Option String
  searchBy : Option String
  role : Option String
  deriving DecidableEq, Repr

structure UsersListResult where
  users : List UserListItem
  pagination : Pagination
  deriving DecidableEq, Repr

def listUsersOk (db : DB) (q : UsersQuery) (l off : Int) : UsersListResult :=
  let sortField := usersSortField q.sortBy
  let order := usersOrder q.sortOrder
  let searchField := usersSearchField q.searchBy
  let search := q.search.getD ""
  let roleFilter := q.role.getD ""
  let filtered := db.users.filter (usersRowPred search searchField roleFilter)
  let pageRows := ((sortUsers sortField order filtered).drop off.toNat).take l.toNat
  let total := (db.users.filter (usersCountPred search searchField roleFilter)).length
  let tp := jsCeilDiv total l
  let pn := (jsToNumber (effPageVal q.page)).getD 0
  { users := pageRows.map (mkUserListItem db)
    pagination :=
      { currentPage := pn
        totalPages := tp
        total := total
        hasNext := match tp with
          | some t => decide (pn < t)
          | none => decide (0 < total)
        hasPrev := decide (1 < pn) } }

/-- `GET /api/users` (admin only; the role gate is middleware outside this
core). -/
def listUsers (db : DB) (q : UsersQuery) : Option UsersListResult :=
  match effLimit q.limit, effOffset q.page q.limit with
  | some l, some off => some (listUsersOk db q l off)
  | _, _ => none

/-! ### GET /api/stores/:id -/

inductive StoreGetResult where
  | notFound
  | accessDenied
  | found (s : StoreRow) (ownerName : Option String) (userRating : Option (Option Nat))
  deriving DecidableEq, Repr

/-- `GET /api/stores/:id`: 404 when the store is missing; 403 when a
store-owner requester does not own it; otherwise the row with the joined
owner name and, for a normal user, their own rating. -/
def getStoreById (db : DB) (p : Principal) (storeId : Nat) : StoreGetResult :=
  match db.stores.find? (fun s => s.id = storeId) with
  | none => .notFound
  | some s =>
    if p.role = "STORE_OWNER" ∧ s.ownerId ≠ some p.id then .accessDenied
    else
      .found s
        ((s.ownerId.bind (fun oid => db.users.find? (fun u => u.id = oid))).map
          (fun u => u.name))
        (if p.role = "NORMAL_USER" then
          some ((db.ratings.find? (fun r => r.storeId = s.id && r.userId = p.id)).map
            (fun r => r.value))
        else none)

/-! ### GET /api/users/:id -/

inductive UserGetResult where
  | forbidden
  | notFound
  | found (u : UserRow) (storeRating : Option Nat) (storeId : Option Nat)
  deriving DecidableEq, Repr

/-- `GET /api/users/:id`: 403 unless the requester is `'SYSTEM_ADMIN'` or is
reading their own id; then the row with the CASE/JOIN store columns. -/
def getUserById (db : DB) (p : Principal) (targetId : Nat) : UserGetResult :=
  if p.role ≠ "SYSTEM_ADMIN" ∧ p.id ≠ targetId then .forbidden
  else
    match db.users.find? (fun u => u.id = targetId) with
    | none => .notFound
    | some u =>
      let st := if u.role = "STORE_OWNER" then
          db.stores.find? (fun s => s.ownerId = some u.id)
        else none
      .found u (st.map (fun s => s.averageTenths)) (st.map (fun s => s.id))

/-! ### POST /api/stores -/

structure CreateStoreReq where
  name : String
  email : String
  address : String
  ownerId : Option Nat
  deriving DecidableEq, Repr

inductive CreateStoreResult where
  | emailExists
  | ownerNotFound
  | notAStoreOwner
  | ownerHasStore
  | created (s : StoreRow)
  deriving DecidableEq, Repr

/-- `POST /api/stores` (admin only): email-uniqueness check, then — when an
`ownerId` is supplied — owner existence, `role !== 'STORE_OWNER'`, and
owner-already-has-a-store checks, each returning 400 before any write;
finally the INSERT.  `newId`/`now` stand for the serial id and timestamp. -/
def createStore (db : DB) (req : CreateStoreReq) (newId now : Nat) :
    CreateStoreResult × DB :=
  if db.stores.any (fun s => s.email = req.email) then (.emailExists, db)
  else
    match req.ownerId with
    | some oid =>
      match db.users.find? (fun u => u.id = oid) with
      | none => (.ownerNotFound, db)
      | some u =>
        if u.role ≠ "STORE_OWNER" then (.notAStoreOwner, db)
        else if db.stores.any (fun s => s.ownerId = some oid) then (.ownerHasStore, db)
        else
          let s : StoreRow :=
            ⟨newId, req.name, req.email, req.address, some oid, 0, 0, now⟩
          (.created s, { db with stores := db.stores ++ [s] })
    | none =>
      let s : StoreRow := ⟨newId, req.name, req.email, req.address, none, 0, 0, now⟩
      (.created s, { db with stores := db.stores ++ [s] })

/-! ### Express dispatch of GET routes on the stores router

Express matches registered routes in registration order; a `:name` segment
matches any single path segment.  The GET routes of src/routes/stores.js in
registration order. -/

inductive Seg where
  | lit (s : String)
  | par (name : String)
  deriving DecidableEq, Repr

def segMatch : Seg → String → Bool
  | .lit l, s => l = s
  | .par _, _ => true

def patMatch : List Seg → List String → Bool
  | [], [] => true
  | p :: ps, s :: ss => segMatch p s && patMatch ps ss
  | _, _ => false

def patBindings : List Seg → List String → List (String × String)
  | .par n :: ps, s :: ss => (n, s) :: patBindings ps ss
  | .lit _ :: ps, _ :: ss => patBindings ps ss
  | _, _ => []

/-- GET routes of the stores router in source order: `/`, `/:id`,
`/:id/ratings`, `/my-store`, `/my-store/ratings`. -/
def storesGetRoutes : List (String × List Seg) :=
  [("listStores", []),
   ("getStoreById", [.par "id"]),
   ("getStoreRatings", [.par "id", .lit "ratings"]),
   ("getMyStore", [.lit "my-store"]),
   ("getMyStoreRatings", [.lit "my-store", .lit "ratings"])]

/-- First-match dispatch: the handler tag and its path-parameter bindings. -/
def dispatchGet (routes : List (String × List Seg)) (path : List String) :
    Option (String × List (String × String)) :=
  (routes.find? (fun e => patMatch e.2 path)).map (fun e => (e.1, patBindings e.2 path))

/-! ## Supporting lemmas -/

/-- The value the trigger stores is exactly the mean rounded to one decimal
place. -/
lemma meanTenthsRounded_eq_pgAvgTenths (l : List Nat) :
    meanTenthsRounded l = pgAvgTenths l := by
  unfold meanTenthsRounded pgAvgTenths
  rcases eq_or_ne l [] with h | h
  · simp [h]
  · have hn : l.length ≠ 0 := by
      simpa [List.length_eq_zero] using h
    have hq : (l.length : ℚ) ≠ 0 := by exact_mod_cast hn
    rw [if_neg h, if_neg h]
    have hcast : 10 * (l.sum : ℚ) / (l.length : ℚ) + 1 / 2
        = ((20 * l.sum + l.length : Nat) : ℚ) / ((2 * l.length : Nat) : ℚ) := by
      push_cast
      field_simp
      ring
    rw [hcast, Nat.floor_div_nat, Nat.floor_natCast]

lemma ratingsFor_recomputeStore (db : DB) (sid tid : Nat) :
    ratingsFor (recomputeStore db tid) sid = ratingsFor db sid := rfl

/-- Running the trigger body establishes the invariant for the recomputed
store, whatever the previous contents of its aggregate columns. -/
lemma aggConsistent_recomputeStore (db : DB) (sid : Nat) :
    aggConsistent (recomputeStore db sid) sid := by
  intro s hs hid
  rw [ratingsFor_recomputeStore]
  simp only [recomputeStore, List.mem_map] at hs
  obtain ⟨t, _, hft⟩ := hs
  by_cases h : t.id = sid
  · rw [if_pos h] at hft
    subst hft
    exact ⟨rfl, (meanTenthsRounded_eq_pgAvgTenths _).symm⟩
  · rw [if_neg h] at hft
    subst hft
    exact absurd hid h

lemma aggConsistent_applyRatingOp (db : DB) (op : RatingOp) (sid : Nat)
    (hop : opStore op = sid) (h : aggConsistent db sid) :
    aggConsistent (applyRatingOp db op) sid := by
  cases op with
  | submit u s v c =>
    have hs : s = sid := hop
    subst hs
    unfold applyRatingOp submitRating
    by_cases h1 : storeExists db s
    · by_cases h2 : ratingExists db u s
      · simpa [h1, h2] using h
      · simp only [h1, h2, Bool.not_true, Bool.false_eq_true, if_false, if_true]
        exact aggConsistent_recomputeStore _ s
    · simpa [h1] using h
  | update u s v c =>
    have hs : s = sid := hop
    subst hs
    unfold applyRatingOp updateRating
    by_cases h1 : storeExists db s
    · by_cases h2 : ratingExists db u s
      · simp only [h1, h2, Bool.not_true, Bool.false_eq_true, if_false]
        exact aggConsistent_recomputeStore _ s
      · simpa [h1, h2] using h
    · simpa [h1] using h
  | remove u s =>
    have hs : s = sid := hop
    subst hs
    unfold applyRatingOp deleteRating
    by_cases h2 : ratingExists db u s
    · simp only [h2, Bool.not_true, Bool.false_eq_true, if_false]
      exact aggConsistent_recomputeStore _ s
    · simpa [h2] using h

lemma aggConsistent_applyRatingOps (db : DB) (sid : Nat) (ops : List RatingOp)
    (hops : ∀ op ∈ ops, opStore op = sid) (h : aggConsistent db sid) :
    aggConsistent (applyRatingOps db ops) sid := by
  induction ops generalizing db with
  | nil => exact h
  | cons op rest ih =>
    exact ih (applyRatingOp db op)
      (fun o ho => hops o (List.mem_cons_of_mem _ ho))
      (aggConsistent_applyRatingOp db op sid (hops op (List.mem_cons_self op rest)) h)

lemma applyRowChange_stores (db : DB) (m : RatingMutation) :
    (applyRowChange db m).stores = db.stores := by
  cases m <;> rfl

lemma storeAgg_stores_eq (db db2 : DB) (sid : Nat) (h : db2.stores = db.stores) :
    storeAgg db2 sid = storeAgg db sid := by
  unfold storeAgg
  rw [h]

lemma storeAgg_recomputeStore_ne (db : DB) (tid sid : Nat) (h : sid ≠ tid) :
    storeAgg (recomputeStore db tid) sid = storeAgg db sid := by
  unfold storeAgg recomputeStore
  simp only
  generalize db.stores = l
  induction l with
  | nil => rfl
  | cons x xs ih =>
    by_cases hx : x.id = tid
    · have hxs : ¬(x.id = sid) := fun hc => h (hc.symm.trans hx)
      simp only [List.map_cons, List.filter_cons, if_pos hx]
      rw [if_neg (by simpa using hxs), if_neg (by simpa using hxs)]
      exact ih
    · simp only [List.map_cons, List.filter_cons, if_neg hx]
      by_cases hxsid : x.id = sid
      · rw [if_pos (by simpa using hxsid), if_pos (by simpa using hxsid)]
        simpa using ih
      · rw [if_neg (by simpa using hxsid), if_neg (by simpa using hxsid)]
        exact ih

/-- Given that PostgreSQL accepted the LIMIT parameter, the JS numeric value
of the destructured `limit` agrees with it. -/
lemma jsToNumber_effLimitVal (lim : Option String) (l : Int)
    (h : effLimit lim = some l) : jsToNumber (effLimitVal lim) = some l := by
  unfold effLimit at h
  cases hv : effLimitVal lim with
  | undef => simp [hv, pgIntParam] at h
  | num n =>
    simp only [hv, pgIntParam] at h
    have hnl : n = l := by
      by_cases hn : n < 0
      · simp [hn] at h
      · simpa [hn] using h
    simp [jsToNumber, hnl]
  | vstr s =>
    simp only [hv, pgIntParam] at h
    cases hp : strToInt s with
    | none => simp [hp] at h
    | some n =>
      simp only [hp] at h
      have hnl : n = l := by
        by_cases hn : n < 0
        · simp [hn] at h
        · simpa [hn] using h
      have hs : s ≠ "" := by
        intro he
        subst he
        simp [strToInt] at hp
      simp [jsToNumber, if_neg hs, hp, hnl]

lemma listStores_eq_some (db : DB) (p : Principal) (q : StoresQuery)
    (res : StoresListResult) (h : listStores db p q = some res) :
    ∃ l off, effLimit q.limit = some l ∧ effOffset q.page q.limit = some off ∧
      res = listStoresOk db p q l off := by
  unfold listStores at h
  cases hl : effLimit q.limit with
  | none => rw [hl] at h; exact absurd h (by simp)
  | some l =>
    cases ho : effOffset q.page q.limit with
    | none => rw [hl, ho] at h; exact absurd h (by simp)
    | some off =>
      rw [hl, ho] at h
      exact ⟨l, off, rfl, rfl, (Option.some.inj h).symm⟩

lemma listUsers_eq_some (db : DB) (q : UsersQuery)
    (res : UsersListResult) (h : listUsers db q = some res) :
    ∃ l off, effLimit q.limit = some l ∧ effOffset q.page q.limit = some off ∧
      res = listUsersOk db q l off := by
  unfold listUsers at h
  cases hl : effLimit q.limit with
  | none => rw [hl] at h; exact absurd h (by simp)
  | some l =>
    cases ho : effOffset q.page q.limit with
    | none => rw [hl, ho] at h; exact absurd h (by simp)
    | some off =>
      rw [hl, ho] at h
      exact ⟨l, off, rfl, rfl, (Option.some.inj h).symm⟩

lemma effOffset_spec (page lim : Option String) (l off pn : Int)
    (hl : effLimit lim = some l)
    (hp : jsToNumber (effPageVal page) = some pn)
    (ho : effOffset page lim = some off) :
    off = (pn - 1) * l ∧ 0 ≤ off := by
  have hll := jsToNumber_effLimitVal lim l hl
  unfold effOffset offsetNumber at ho
  rw [hp, hll] at ho
  simp only at ho
  split at ho
  · exact absurd ho (by simp)
  next hneg =>
    have heq := Option.some.inj ho
    exact ⟨heq.symm, heq ▸ le_of_not_lt hneg⟩

/-- The count query filters by exactly the same predicate as the row
query. -/
lemma storesCountPred_eq_rowPred :
    storesCountPred = storesRowPred := rfl

lemma usersCountPred_eq_rowPred :
    usersCountPred = usersRowPred := rfl

/-- No value the `users.role` CHECK constraint can store equals any of the
uppercase strings tested in the route handlers. -/
lemma storableRole_ne {r : String} (h : r ∈ storableRoles) :
    r ≠ "NORMAL_USER" ∧ r ≠ "STORE_OWNER" ∧ r ≠ "SYSTEM_ADMIN" := by
  have h2 : r = "system_admin" ∨ r = "normal_user" ∨ r = "store_owner" := by
    simpa [storableRoles] using h
  rcases h2 with h2 | h2 | h2 <;> subst h2 <;>
    exact ⟨by decide, by decide, by decide⟩

lemma listStoresOk_role_independent (db : DB) (q : StoresQuery) (l off : Int)
    (p p2 : Principal)
    (hp1 : p.role ≠ "STORE_OWNER") (hp2 : p.role ≠ "NORMAL_USER")
    (hq1 : p2.role ≠ "STORE_OWNER") (hq2 : p2.role ≠ "NORMAL_USER") :
    listStoresOk db p q l off = listStoresOk db p2 q l off := by
  have hpred : storesRowPred p (q.search.getD "") (storesSearchField q.searchBy)
      = storesRowPred p2 (q.search.getD "") (storesSearchField q.searchBy) := by
    funext s
    unfold storesRowPred
    rw [if_neg hp1, if_neg hq1]
  have hcnt : storesCountPred p (q.search.getD "") (storesSearchField q.searchBy)
      = storesCountPred p2 (q.search.getD "") (storesSearchField q.searchBy) := by
    funext s
    unfold storesCountPred
    rw [if_neg hp1, if_neg hq1]
  have hitem : mkStoreListItem db p = mkStoreListItem db p2 := by
    funext s
    unfold mkStoreListItem
    rw [if_neg hp2, if_neg hq2]
  unfold listStoresOk
  simp only [hpred, hcnt, hitem]

/-- First-match dispatch on the stores router, by path shape. -/
lemma dispatchGet_stores_cases (path : List String) :
    dispatchGet storesGetRoutes path =
      match path with
      | [] => some ("listStores", [])
      | [a] => some ("getStoreById", [("id", a)])
      | [a, b] =>
          if b = "ratings" then some ("getStoreRatings", [("id", a)]) else none
      | _ :: _ :: _ :: _ => none := by
  match path with
  | [] => rfl
  | [a] => rfl
  | [a, b] =>
    by_cases hb : b = "ratings"
    · subst hb; rfl
    · simp [dispatchGet, storesGetRoutes, patMatch, segMatch, hb, Ne.symm hb]
  | a :: b :: c :: t =>
    simp [dispatchGet, storesGetRoutes, patMatch, segMatch]

lemma ratingExists_iff (db : DB) (u s : Nat) :
    ratingExists db u s = true ↔ ∃ r ∈ db.ratings, r.userId = u ∧ r.storeId = s := by
  unfold ratingExists
  simp [List.any_eq_true]

lemma storeExists_iff (db : DB) (s : Nat) :
    storeExists db s = true ↔ ∃ st ∈ db.stores, st.id = s := by
  unfold storeExists
  simp [List.any_eq_true]

lemma updateRating_keys (u s : Nat) (v : Nat) (c : Option String) (r : RatingRow) :
    ((if r.userId = u && r.storeId = s then
        { r with value := v, comment := c } else r) : RatingRow).userId = r.userId
    ∧ ((if r.userId = u && r.storeId = s then
        { r with value := v, comment := c } else r) : RatingRow).storeId = r.storeId := by
  split <;> exact ⟨rfl, rfl⟩

lemma ratingsUnique_applyRatingOp (db : DB) (op : RatingOp)
    (h : ratingsUnique db) : ratingsUnique (applyRatingOp db op) := by
  cases op with
  | submit u s v c =>
    unfold applyRatingOp submitRating
    by_cases h1 : storeExists db s
    · by_cases h2 : ratingExists db u s
      · simpa [h1, h2] using h
      · simp only [h1, h2, Bool.not_true, Bool.false_eq_true, if_false, if_true]
        unfold ratingsUnique applyMutation recomputeStore applyRowChange
        simp only
        rw [List.pairwise_append]
        refine ⟨h, List.pairwise_singleton _ _, ?_⟩
        intro a ha b hb hc
        have hb2 : b = ⟨u, s, v, c⟩ := by simpa using hb
        subst hb2
        exact h2 ((ratingExists_iff db u s).2 ⟨a, ha, hc.1, hc.2⟩)
    · simpa [h1] using h
  | update u s v c =>
    unfold applyRatingOp updateRating
    by_cases h1 : storeExists db s
    · by_cases h2 : ratingExists db u s
      · simp only [h1, h2, Bool.not_true, Bool.false_eq_true, if_false]
        unfold ratingsUnique recomputeStore
        simp only
        refine List.Pairwise.map _ (fun a b hab hc => hab ?_) h
        have ka := updateRating_keys u s v c a
        have kb := updateRating_keys u s v c b
        exact ⟨ka.1 ▸ kb.1 ▸ hc.1, ka.2 ▸ kb.2 ▸ hc.2⟩
      · simpa [h1, h2] using h
    · simpa [h1] using h
  | remove u s =>
    unfold applyRatingOp deleteRating
    by_cases h2 : ratingExists db u s
    · simp only [h2, Bool.not_true, Bool.false_eq_true, if_false]
      unfold ratingsUnique recomputeStore
      simp only
      exact List.Pairwise.filter _ h
    · simpa [h2] using h

lemma listStoresOk_total (db : DB) (p : Principal) (q : StoresQuery) (l off : Int) :
    (listStoresOk db p q l off).pagination.total
      = (db.stores.filter
          (storesRowPred p (q.search.getD "") (storesSearchField q.searchBy))).length := rfl

lemma listStoresOk_totalPages (db : DB) (p : Principal) (q : StoresQuery) (l off : Int) :
    (listStoresOk db p q l off).pagination.totalPages
      = jsCeilDiv ((listStoresOk db p q l off).pagination.total) l := rfl

lemma listStoresOk_hasNext (db : DB) (p : Principal) (q : StoresQuery) (l off : Int) :
    (listStoresOk db p q l off).pagination.hasNext
      = match (listStoresOk db p q l off).pagination.totalPages with
        | some t => decide ((jsToNumber (effPageVal q.page)).getD 0 < t)
        | none => decide (0 < (listStoresOk db p q l off).pagination.total) := rfl

lemma listStoresOk_hasPrev (db : DB) (p : Principal) (q : StoresQuery) (l off : Int) :
    (listStoresOk db p q l off).pagination.hasPrev
      = decide (1 < (jsToNumber (effPageVal q.page)).getD 0) := rfl

lemma listUsersOk_total (db : DB) (q : UsersQuery) (l off : Int) :
    (listUsersOk db q l off).pagination.total
      = (db.users.filter
          (usersRowPred (q.search.getD "") (usersSearchField q.searchBy)
            (q.role.getD ""))).length := rfl

lemma listUsersOk_totalPages (db : DB) (q : UsersQuery) (l off : Int) :
    (listUsersOk db q l off).pagination.totalPages
      = jsCeilDiv ((listUsersOk db q l off).pagination.total) l := rfl

lemma listUsersOk_hasNext (db : DB) (q : UsersQuery) (l off : Int) :
    (listUsersOk db q l off).pagination.hasNext
      = match (listUsersOk db q l off).pagination.totalPages with
        | some t => decide ((jsToNumber (effPageVal q.page)).getD 0 < t)
        | none => decide (0 < (listUsersOk db q l off).pagination.total) := rfl

lemma listUsersOk_hasPrev (db : DB) (q : UsersQuery) (l off : Int) :
    (listUsersOk db q l off).pagination.hasPrev
      = decide (1 < (jsToNumber (effPageVal q.page)).getD 0) := rfl

lemma jsCeilDiv_pos (total : Nat) (l : Int) (h : 1 ≤ l) :
    jsCeilDiv total l = some (((total + l.toNat - 1) / l.toNat : Nat) : Int) := by
  unfold jsCeilDiv
  rw [if_pos (by omega)]

/-! ## Claim theorems -/

/-- Claim C1: for every sequence of rating inserts, updates and deletes
directed at a store, after each operation the store row's `total_ratings`
equals the count of its rating rows and `average_rating` equals their mean
rounded to one decimal place — zero, not null, when no rating rows exist;
in particular deleting the last rating resets both fields to zero. -/
theorem C1_aggregate_invariant_after_each_mutation :
    (∀ db op sid, opStore op = sid → aggConsistent db sid →
      aggConsistent (applyRatingOp db op) sid)
    ∧ (∀ (db : DB) (sid : Nat) (ops : List RatingOp) (i : Nat),
      (∀ op ∈ ops, opStore op = sid) → aggConsistent db sid →
      aggConsistent (applyRatingOps db (ops.take i)) sid)
    ∧ (∀ db u sid res db2, deleteRating db u sid = (res, db2) →
      res = DeleteResult.deleted → ratingsFor db2 sid = [] →
      ∀ s ∈ db2.stores, s.id = sid → s.averageTenths = 0 ∧ s.totalRatings = 0) := by
  refine ⟨aggConsistent_applyRatingOp, ?_, ?_⟩
  · intro db sid ops i hops h
    exact aggConsistent_applyRatingOps db sid (ops.take i)
      (fun op hop => hops op (List.take_subset i ops hop)) h
  · intro db u sid res db2 hdel hres hemp s hs hid
    subst hres
    unfold deleteRating at hdel
    by_cases hex : ratingExists db u sid
    · simp only [hex, Bool.not_true, Bool.false_eq_true, if_false] at hdel
      rw [Prod.mk.injEq] at hdel
      obtain ⟨-, hdb2⟩ := hdel
      subst hdb2
      have hcons := aggConsistent_recomputeStore _ sid s hs hid
      rw [ratingsFor_recomputeStore] at hcons
      rw [ratingsFor_recomputeStore] at hemp
      rw [hemp] at hcons
      exact ⟨by simpa [meanTenthsRounded] using hcons.2, by simpa using hcons.1⟩
    · simp only [hex, Bool.not_false, if_true] at hdel
      rw [Prod.mk.injEq] at hdel
      exact absurd hdel.1.symm (by simp)

/-- Claim C1 witness: submitting a first rating to a fresh store keeps the
aggregate invariant. -/
theorem C1_witness :
    aggConsistent
      (applyRatingOp
        ⟨[], [⟨1, "Premium Electronics Store", "s@x.com", "addr", none, 0, 0, 0⟩], []⟩
        (RatingOp.submit 9 1 5 none)) 1 :=
  C1_aggregate_invariant_after_each_mutation.1
    ⟨[], [⟨1, "Premium Electronics Store", "s@x.com", "addr", none, 0, 0, 0⟩], []⟩
    (RatingOp.submit 9 1 5 none) 1 rfl (by decide)

/-- Claim C3: a requested sortBy value outside the resource allow-list makes
the list operation use that resource's default sort field `name`, with no
error raised: the stores list behaves exactly as with `sortBy=name`, and
the users handler's effective sort field is also `name`. -/
theorem C3_sortby_allowlist_fallback :
    ∀ s : String,
      (s ∉ storesValidSortFields →
        storesSortField (some s) = "name"
        ∧ (∀ db p page lim so se sb,
            listStores db p ⟨page, lim, some s, so, se, sb⟩
              = listStores db p ⟨page, lim, some "name", so, se, sb⟩)
        ∧ (∀ db p, listStores db p ⟨none, none, some s, none, none, none⟩ ≠ none))
      ∧ (s ∉ usersValidSortFields → usersSortField (some s) = "name") := by
  intro s
  constructor
  · intro hs
    have hname : storesSortField (some s) = "name" := by
      simp [storesSortField, hs]
    have h2 : storesSortField (some s) = storesSortField (some "name") := by
      rw [hname]
      simp [storesSortField, storesValidSortFields]
    refine ⟨hname, ?_, ?_⟩
    · intro db p page lim so se sb
      have hok : ∀ l off : Int,
          listStoresOk db p ⟨page, lim, some s, so, se, sb⟩ l off
            = listStoresOk db p ⟨page, lim, some "name", so, se, sb⟩ l off := by
        intro l off
        unfold listStoresOk
        dsimp only
        rw [h2]
      unfold listStores
      dsimp only
      cases hl : effLimit lim <;> cases ho : effOffset page lim <;> simp [hok]
    · intro db p hcontra
      have hred : listStores db p ⟨none, none, some s, none, none, none⟩
          = some (listStoresOk db p ⟨none, none, some s, none, none, none⟩ 10 0) := rfl
      rw [hred] at hcontra
      cases hcontra
  · intro hs
    simp [usersSortField, hs]

/-- Claim C3 witness. -/
theorem C3_witness :
    storesSortField (some "unknown_field") = "name"
    ∧ usersSortField (some "unknown_field") = "name" :=
  ⟨((C3_sortby_allowlist_fallback "unknown_field").1 (by decide)).1,
   (C3_sortby_allowlist_fallback "unknown_field").2 (by decide)⟩

/-- Claim C7: at most one rating per (user, store): submitting when a rating
by that user for that store exists fails with the conflict response and
leaves the database unchanged; updating when none exists fails with a
not-found response and writes nothing; and every rating operation preserves
uniqueness of (user_id, store_id). -/
theorem C7_one_rating_per_user_store :
    ∀ db u s v c op,
      ((∀ r ∈ db.ratings, ∃ st ∈ db.stores, st.id = r.storeId) →
        (∃ r ∈ db.ratings, r.userId = u ∧ r.storeId = s) →
        submitRating db u s v c = (SubmitResult.alreadyRated, db))
      ∧ ((¬ ∃ r ∈ db.ratings, r.userId = u ∧ r.storeId = s) →
        (updateRating db u s v c).2 = db
        ∧ ((updateRating db u s v c).1 = UpdateResult.storeNotFound
            ∨ (updateRating db u s v c).1 = UpdateResult.notRated))
      ∧ (ratingsUnique db → ratingsUnique (applyRatingOp db op)) := by
  intro db u s v c op
  refine ⟨?_, ?_, ratingsUnique_applyRatingOp db op⟩
  · intro hfk hex
    have hexB : ratingExists db u s = true := (ratingExists_iff db u s).2 hex
    obtain ⟨r, hr, hru, hrs⟩ := hex
    obtain ⟨st, hst, hstid⟩ := hfk r hr
    have hstB : storeExists db s = true :=
      (storeExists_iff db s).2 ⟨st, hst, by rw [hstid, hrs]⟩
    unfold submitRating
    simp [hstB, hexB]
  · intro hnex
    have hexF : ratingExists db u s = false := by
      cases hbool : ratingExists db u s
      · rfl
      · exact absurd ((ratingExists_iff db u s).1 hbool) hnex
    unfold updateRating
    by_cases hst : storeExists db s
    · simp [hst, hexF]
    · simp [hst]

/-- Claim C7 witness: a duplicate submission is rejected and the state kept. -/
theorem C7_witness :
    submitRating ⟨[], [⟨1, "n", "e", "a", none, 50, 1, 0⟩], [⟨2, 1, 5, none⟩]⟩ 2 1 4 none
      = (SubmitResult.alreadyRated,
         ⟨[], [⟨1, "n", "e", "a", none, 50, 1, 0⟩], [⟨2, 1, 5, none⟩]⟩) :=
  (C7_one_rating_per_user_store
    ⟨[], [⟨1, "n", "e", "a", none, 50, 1, 0⟩], [⟨2, 1, 5, none⟩]⟩ 2 1 4 none
    (RatingOp.remove 0 0)).1 (by decide) (by decide)

/-- Claim C9: on the stores router, GET `/:id` and `/:id/ratings` are
registered before the `my-store` routes, so `/my-store` dispatches to the
get-store-by-id handler with `id = "my-store"`, `/my-store/ratings`
dispatches to the `/:id/ratings` handler with `id = "my-store"`, and no
path reaches the two dedicated my-store handlers. -/
theorem C9_my_store_routes_shadowed :
    dispatchGet storesGetRoutes ["my-store"]
        = some ("getStoreById", [("id", "my-store")])
    ∧ dispatchGet storesGetRoutes ["my-store", "ratings"]
        = some ("getStoreRatings", [("id", "my-store")])
    ∧ (∀ path res, dispatchGet storesGetRoutes path = some res →
        res.1 ≠ "getMyStore" ∧ res.1 ≠ "getMyStoreRatings") := by
  refine ⟨by decide, by decide, ?_⟩
  intro path res h
  rw [dispatchGet_stores_cases] at h
  rcases path with _ | ⟨a, _ | ⟨b, _ | ⟨c, t⟩⟩⟩
  · injection h with h
    subst h
    exact ⟨by simp, by simp⟩
  · injection h with h
    subst h
    exact ⟨by simp, by simp⟩
  · dsimp only at h
    by_cases hb : b = "ratings"
    · rw [if_pos hb] at h
      injection h with h
      subst h
      exact ⟨by simp, by simp⟩
    · rw [if_neg hb] at h
      cases h
  · cases h

/-- Claim C9 witness. -/
theorem C9_witness :
    ("getStoreById", [("id", "my-store")]).1 ≠ "getMyStore"
    ∧ ("getStoreById", [("id", "my-store")]).1 ≠ "getMyStoreRatings" :=
  C9_my_store_routes_shadowed.2.2 ["my-store"]
    ("getStoreById", [("id", "my-store")]) (by decide)

/-- Claim C10: a rating mutation recomputes the aggregates only of the store
`COALESCE(NEW.store_id, OLD.store_id)`; every other store row keeps its
`average_rating`/`total_ratings`.  For an UPDATE moving a rating to another
store the trigger target is the destination store, and the former store's
aggregates are not recomputed. -/
theorem C10_trigger_recomputes_single_store :
    (∀ db m sid, sid ≠ mutTarget m →
      storeAgg (applyMutation db m) sid = storeAgg db sid)
    ∧ (∀ o n : RatingRow, o.storeId ≠ n.storeId →
      mutTarget (RatingMutation.upd o n) = n.storeId)
    ∧ (∀ db (o n : RatingRow), o.storeId ≠ n.storeId →
      storeAgg (applyMutation db (RatingMutation.upd o n)) o.storeId
        = storeAgg db o.storeId) := by
  have hframe : ∀ db m sid, sid ≠ mutTarget m →
      storeAgg (applyMutation db m) sid = storeAgg db sid := by
    intro db m sid h
    unfold applyMutation
    rw [storeAgg_recomputeStore_ne _ _ _ h]
    exact storeAgg_stores_eq db _ sid (applyRowChange_stores db m)
  exact ⟨hframe, fun o n _ => rfl, fun db o n h => hframe db _ _ h⟩

/-- Claim C10 witness: inserting a rating for store 1 leaves store 2's
aggregates untouched. -/
theorem C10_witness :
    storeAgg (applyMutation
        ⟨[], [⟨2, "n", "e", "a", none, 7, 3, 0⟩], [⟨4, 2, 5, none⟩]⟩
        (RatingMutation.ins ⟨9, 1, 4, none⟩)) 2
      = storeAgg ⟨[], [⟨2, "n", "e", "a", none, 7, 3, 0⟩], [⟨4, 2, 5, none⟩]⟩ 2 :=
  C10_trigger_recomputes_single_store.1
    ⟨[], [⟨2, "n", "e", "a", none, 7, 3, 0⟩], [⟨4, 2, 5, none⟩]⟩
    (RatingMutation.ins ⟨9, 1, 4, none⟩) 2 (by decide)

/-- Claim C2 counterexample: `limit=0` (zero) is used as-is — the effective
limit is 0, not the fallback default 10 — and `limit=abc` (non-numeric)
makes the list operation fail with a server error instead of producing
results. -/
theorem C2_counterexample :
    effLimit (some "0") = some 0
    ∧ effLimit (some "0") ≠ some 10
    ∧ listStores ⟨[], [], []⟩ ⟨1, "system_admin"⟩
        ⟨none, some "abc", none, none, none, none⟩ = none := by
  exact ⟨rfl, by decide, by decide⟩

/-- Claim C2 amended: the fallback defaults page=1 and limit=10 apply only
when the parameter is absent from the request (then
`totalPages = ceil(total/10)`); a present value is not replaced — zero is
used as given, and negative or non-numeric values make the query fail. -/
theorem C2_amended_defaults_only_when_absent :
    effLimit none = some 10
    ∧ jsToNumber (effPageVal none) = some 1
    ∧ (∀ db p q res, q.page = none → q.limit = none → listStores db p q = some res →
        res.pagination.totalPages = some (((res.pagination.total + 9) / 10 : Nat) : Int))
    ∧ effLimit (some "0") = some 0
    ∧ effLimit (some "-5") = none
    ∧ (∀ db p q, q.limit = some "abc" → listStores db p q = none) := by
  refine ⟨rfl, rfl, ?_, rfl, by decide, ?_⟩
  · intro db p q res hpage hlim hres
    obtain ⟨l, off, hl, hoff, hres2⟩ := listStores_eq_some db p q res hres
    rw [hlim] at hl
    rw [show effLimit none = some (10 : Int) from rfl] at hl
    have hl10 : (10 : Int) = l := Option.some.inj hl
    subst hl10
    subst hres2
    rw [listStoresOk_totalPages, jsCeilDiv_pos _ _ (by omega)]
    have h9 : (listStoresOk db p q 10 off).pagination.total + (10 : Int).toNat - 1
        = (listStoresOk db p q 10 off).pagination.total + 9 := by
      omega
    rw [h9]
    rfl
  · intro db p q hlim
    unfold listStores
    rw [hlim]
    rw [show effLimit (some "abc") = none from rfl]

/-- Claim C2 amended witness: with both parameters absent the defaults give
`totalPages = ceil(total/10)`. -/
theorem C2_witness :
    (listStoresOk ⟨[], [], []⟩ ⟨1, "system_admin"⟩
        ⟨none, none, none, none, none, none⟩ 10 0).pagination.totalPages
      = some ((((listStoresOk ⟨[], [], []⟩ ⟨1, "system_admin"⟩
          ⟨none, none, none, none, none, none⟩ 10 0).pagination.total + 9) / 10 : Nat) : Int) :=
  C2_amended_defaults_only_when_absent.2.2.1 ⟨[], [], []⟩ ⟨1, "system_admin"⟩
    ⟨none, none, none, none, none, none⟩ _ rfl rfl rfl

/-- Claim C4: for a list request the handler accepts (with a positive
numeric limit), the pagination block satisfies
`totalPages = ceil(total/limit)`, `hasNext = page < totalPages`,
`hasPrev = page > 1`, and `total` is the separately assembled count query
over the same filter predicate as the row query — for both the stores list
and the users list. -/
theorem C4_pagination_metadata :
    (∀ db p q res l pn,
      listStores db p q = some res →
      effLimit q.limit = some l → 1 ≤ l →
      jsToNumber (effPageVal q.page) = some pn →
      res.pagination.total
          = (db.stores.filter
              (storesRowPred p (q.search.getD "") (storesSearchField q.searchBy))).length
      ∧ res.pagination.totalPages
          = some (((res.pagination.total + l.toNat - 1) / l.toNat : Nat) : Int)
      ∧ res.pagination.hasNext
          = decide (pn < (((res.pagination.total + l.toNat - 1) / l.toNat : Nat) : Int))
      ∧ res.pagination.hasPrev = decide (1 < pn))
    ∧ (∀ db q res l pn,
      listUsers db q = some res →
      effLimit q.limit = some l → 1 ≤ l →
      jsToNumber (effPageVal q.page) = some pn →
      res.pagination.total
          = (db.users.filter
              (usersRowPred (q.search.getD "") (usersSearchField q.searchBy)
                (q.role.getD ""))).length
      ∧ res.pagination.totalPages
          = some (((res.pagination.total + l.toNat - 1) / l.toNat : Nat) : Int)
      ∧ res.pagination.hasNext
          = decide (pn < (((res.pagination.total + l.toNat - 1) / l.toNat : Nat) : Int))
      ∧ res.pagination.hasPrev = decide (1 < pn)) := by
  constructor
  · intro db p q res l pn hres hlim hl1 hpn
    obtain ⟨l2, off, hl2, hoff, hres2⟩ := listStores_eq_some db p q res hres
    rw [hlim] at hl2
    have hll : l = l2 := Option.some.inj hl2
    subst hll
    subst hres2
    refine ⟨listStoresOk_total db p q l off, ?_, ?_, ?_⟩
    · rw [listStoresOk_totalPages, jsCeilDiv_pos _ _ hl1]
    · rw [listStoresOk_hasNext, listStoresOk_totalPages, jsCeilDiv_pos _ _ hl1, hpn]
      simp
    · rw [listStoresOk_hasPrev, hpn]
      simp
  · intro db q res l pn hres hlim hl1 hpn
    obtain ⟨l2, off, hl2, hoff, hres2⟩ := listUsers_eq_some db q res hres
    rw [hlim] at hl2
    have hll : l = l2 := Option.some.inj hl2
    subst hll
    subst hres2
    refine ⟨listUsersOk_total db q l off, ?_, ?_, ?_⟩
    · rw [listUsersOk_totalPages, jsCeilDiv_pos _ _ hl1]
    · rw [listUsersOk_hasNext, listUsersOk_totalPages, jsCeilDiv_pos _ _ hl1, hpn]
      simp
    · rw [listUsersOk_hasPrev, hpn]
      simp

/-- Claim C4 witness: stores list over an empty table with default
parameters. -/
theorem C4_witness :
    (listStoresOk ⟨[], [], []⟩ ⟨1, "system_admin"⟩
        ⟨none, none, none, none, none, none⟩ 10 0).pagination.total
      = (([] : List StoreRow).filter
          (storesRowPred ⟨1, "system_admin"⟩ "" "name")).length
    ∧ (listStoresOk ⟨[], [], []⟩ ⟨1, "system_admin"⟩
        ⟨none, none, none, none, none, none⟩ 10 0).pagination.totalPages
      = some ((((listStoresOk ⟨[], [], []⟩ ⟨1, "system_admin"⟩
          ⟨none, none, none, none, none, none⟩ 10 0).pagination.total + 10 - 1) / 10 : Nat) : Int)
    ∧ (listStoresOk ⟨[], [], []⟩ ⟨1, "system_admin"⟩
        ⟨none, none, none, none, none, none⟩ 10 0).pagination.hasNext
      = decide ((1 : Int) < ((((listStoresOk ⟨[], [], []⟩ ⟨1, "system_admin"⟩
          ⟨none, none, none, none, none, none⟩ 10 0).pagination.total + 10 - 1) / 10 : Nat) : Int))
    ∧ (listStoresOk ⟨[], [], []⟩ ⟨1, "system_admin"⟩
        ⟨none, none, none, none, none, none⟩ 10 0).pagination.hasPrev
      = decide ((1 : Int) < 1) :=
  C4_pagination_metadata.1 ⟨[], [], []⟩ ⟨1, "system_admin"⟩
    ⟨none, none, none, none, none, none⟩ _ 10 1 rfl rfl (by decide) rfl

/-- Claim C5 counterexample: an empty result set with a requested `page=2`
yields `hasPrev = true`, not the claimed `hasPrev = false`. -/
theorem C5_counterexample :
    (listStores ⟨[], [], []⟩ ⟨1, "system_admin"⟩
        ⟨some "2", none, none, none, none, none⟩).map
      (fun r => (r.pagination.totalPages, r.pagination.hasNext, r.pagination.hasPrev))
      = some (some 0, false, true) := by decide

/-- Claim C5 amended: for an accepted list request whose filter matches no
rows, the pagination block is `totalPages = 0`, `hasNext = false`, and
`hasPrev = (page > 1)` — not `hasPrev = false` for every page. -/
theorem C5_amended_empty_result_pagination :
    ∀ db p q res l pn,
      listStores db p q = some res →
      effLimit q.limit = some l → 1 ≤ l →
      jsToNumber (effPageVal q.page) = some pn →
      res.pagination.total = 0 →
      res.pagination.totalPages = some 0
      ∧ res.pagination.hasNext = false
      ∧ res.pagination.hasPrev = decide (1 < pn) := by
  intro db p q res l pn hres hlim hl1 hpn h0
  obtain ⟨l2, off, hl2, hoff, hres2⟩ := listStores_eq_some db p q res hres
  rw [hlim] at hl2
  have hll : l = l2 := Option.some.inj hl2
  subst hll
  subst hres2
  obtain ⟨hoffeq, hoffpos⟩ := effOffset_spec q.page q.limit l off pn hlim hpn hoff
  rw [hoffeq] at hoffpos
  have hpn1 : 1 ≤ pn := by
    by_contra hcon
    push_neg at hcon
    have hneg : (pn - 1) * l < 0 :=
      mul_neg_of_neg_of_pos (by omega) (by omega)
    omega
  have htp : (listStoresOk db p q l off).pagination.totalPages = some 0 := by
    rw [listStoresOk_totalPages, jsCeilDiv_pos _ _ hl1, h0]
    have hz : (0 + l.toNat - 1) / l.toNat = 0 := Nat.div_eq_of_lt (by omega)
    rw [hz]
    rfl
  refine ⟨htp, ?_, ?_⟩
  · rw [listStoresOk_hasNext, htp, hpn]
    simp only [Option.getD_some, decide_eq_false_iff_not, not_lt]
    omega
  · rw [listStoresOk_hasPrev, hpn]
    simp

/-- Claim C5 amended witness: empty stores table, `page=3`. -/
theorem C5_witness :
    (listStoresOk ⟨[], [], []⟩ ⟨1, "system_admin"⟩
        ⟨some "3", none, none, none, none, none⟩ 10 20).pagination.totalPages = some 0
    ∧ (listStoresOk ⟨[], [], []⟩ ⟨1, "system_admin"⟩
        ⟨some "3", none, none, none, none, none⟩ 10 20).pagination.hasNext = false
    ∧ (listStoresOk ⟨[], [], []⟩ ⟨1, "system_admin"⟩
        ⟨some "3", none, none, none, none, none⟩ 10 20).pagination.hasPrev
      = decide ((1 : Int) < 3) :=
  C5_amended_empty_result_pagination ⟨[], [], []⟩ ⟨1, "system_admin"⟩
    ⟨some "3", none, none, none, none, none⟩ _ 10 3 rfl rfl (by decide) rfl rfl

/-- Claim C6, code behaviour at the failing input: a user stored with the
only store-owner role the schema admits, "store_owner", is rejected by the
handler's `role !== 'STORE_OWNER'` comparison, so the first create-store
request carrying that ownerId already fails (no store row is inserted)
instead of succeeding as the claim's scenario states; indeed no storable
role passes the check. -/
theorem C6_first_create_store_with_owner_rejected :
    createStore
        ⟨[⟨7, "John Smith - Store Owner One", "owner1@example.com", "addr",
            "store_owner", 0⟩], [], []⟩
        ⟨"Premium Electronics Store", "contact@store.com", "addr", some 7⟩ 1 0
      = (CreateStoreResult.notAStoreOwner,
         ⟨[⟨7, "John Smith - Store Owner One", "owner1@example.com", "addr",
            "store_owner", 0⟩], [], []⟩)
    ∧ ∀ r ∈ storableRoles, r ≠ "STORE_OWNER" := by
  exact ⟨by decide, by decide⟩

/-- Claim C8: the schema stores only lowercase roles while the handlers test
uppercase strings, so for any principal whose role is a storable value the
role-conditional branches are dead: the stores list result does not depend
on the principal at all, its rows never carry the user_rating column, the
admin bypass in GET /api/users/:id is never granted (another user's profile
is always forbidden), and the store-owner 403 in GET /api/stores/:id never
fires. -/
theorem C8_uppercase_role_branches_never_taken :
    ∀ r ∈ storableRoles,
      (∀ db q uid uid2 r2, r2 ∈ storableRoles →
        listStores db ⟨uid, r⟩ q = listStores db ⟨uid2, r2⟩ q)
      ∧ (∀ db q uid res, listStores db ⟨uid, r⟩ q = some res →
          ∀ item ∈ res.stores, item.userRating = none)
      ∧ (∀ db uid tid, uid ≠ tid →
          getUserById db ⟨uid, r⟩ tid = UserGetResult.forbidden)
      ∧ (∀ db uid sid, getStoreById db ⟨uid, r⟩ sid ≠ StoreGetResult.accessDenied) := by
  intro r hr
  obtain ⟨hrn, hrs, hra⟩ := storableRole_ne hr
  refine ⟨?_, ?_, ?_, ?_⟩
  · intro db q uid uid2 r2 hr2
    obtain ⟨h2n, h2s, -⟩ := storableRole_ne hr2
    unfold listStores
    cases hl : effLimit q.limit with
    | none => rfl
    | some l =>
      cases ho : effOffset q.page q.limit with
      | none => rfl
      | some off =>
        exact congrArg some
          (listStoresOk_role_independent db q l off ⟨uid, r⟩ ⟨uid2, r2⟩ hrs hrn h2s h2n)
  · intro db q uid res hres item hitem
    obtain ⟨l, off, -, -, hres2⟩ := listStores_eq_some db ⟨uid, r⟩ q res hres
    subst hres2
    simp only [listStoresOk, List.mem_map] at hitem
    obtain ⟨s, -, hseq⟩ := hitem
    rw [← hseq]
    unfold mkStoreListItem
    dsimp only
    rw [if_neg hrn]
  · intro db uid tid hne
    unfold getUserById
    rw [if_pos ⟨hra, hne⟩]
  · intro db uid sid
    unfold getStoreById
    cases hf : db.stores.find? (fun s => s.id = sid) with
    | none => exact fun h => nomatch h
    | some s =>
      dsimp only
      rw [if_neg (fun hc => hrs hc.1)]
      exact fun h => nomatch h

/-- Claim C8 witness: a stored-role admin reading another user's profile is
forbidden. -/
theorem C8_witness :
    getUserById ⟨[], [], []⟩ ⟨1, "system_admin"⟩ 2 = UserGetResult.forbidden :=
  (C8_uppercase_role_branches_never_taken "system_admin" (by decide)).2.2.1
    ⟨[], [], []⟩ 1 2 (by decide)

end StoreRating
